import Mathlib

/-!
Verification of the per-region time-series pipeline of
`data_integrity_curr_vs_prior_peak_chart.ipynb`.

The notebook derives, per county ("fips", the region key), an incremental
daily-case series from cumulative counts, recalibrates it with date-tiered
multipliers, smooths it with a 7-day rolling mean, and compares a recent
average against a historical peak via `safe_div`.

Modelling choices:
  - A table is a `List Row`; a row carries the region key (`fips`, possibly
    missing, as in a CSV null), the date (possibly missing, i.e. pandas NaT)
    and the cumulative count.  Dates are encoded as naturals in `yyyymmdd`
    shape, an order-preserving encoding; the source only compares dates.
  - Numeric cells are `Option ℚ`: `none` is the NaN sentinel that pandas
    uses for insufficient history, and `some q` a defined value.
  - Pandas reductions (`max`, `mean`) skip NaN and return NaN on empty
    input; they are modelled by `maxSkipna` / `meanSkipna` on `Option ℚ`.
  - The values reaching `safe_div` are numpy `float64` scalars (results of
    `Series.max()` / `Series.mean()`).  Division of such scalars by zero or
    NaN does not raise `ZeroDivisionError`: it yields `inf` / `nan` with a
    warning.  `RVal` captures the possible outcomes (finite, infinities,
    NaN) and `fdiv` is that division; consequently `safe_div x y = fdiv x y`
    and the `except ZeroDivisionError` branch of the source is dead code.
-/

namespace Covid

/-- A row of the raw table `covid_df`: region key `fips` (a string,
possibly missing), observation date (possibly missing, pandas NaT) and the
cumulative case count. -/
structure Row where
  fips : Option String
  date : Option Nat
  cases : ℚ
deriving DecidableEq

/-- `d < c` as pandas evaluates `df["date"] < cutoff`: comparing NaT with a
date gives `False`. -/
def dateLt (d : Option Nat) (c : Nat) : Bool :=
  match d with
  | none => false
  | some x => decide (x < c)

/-- `d > c` as pandas evaluates `df["date"] > cutoff`; `False` on NaT. -/
def dateGt (d : Option Nat) (c : Nat) : Bool :=
  match d with
  | none => false
  | some x => decide (c < x)

/-- Cutoff dates hard-coded in the notebook. -/
def d20200601 : Nat := 20200601

def d20201001 : Nat := 20201001

def d20210206 : Nat := 20210206

/-- One pass of `covid_df.groupby("fips")["cases"].diff().fillna(0)`.
`seen` maps each region key to the cumulative count of its latest earlier
row.  A row whose key was not seen before (the first row of its group) gets
a NaN diff, filled to `0`; a row with a missing key belongs to no group
(pandas drops null keys from `groupby`), so its diff is NaN, filled to `0`. -/
def daily_cases_aux (seen : List (String × ℚ)) : List Row → List ℚ
  | [] => []
  | r :: rs =>
    match r.fips with
    | none => 0 :: daily_cases_aux seen rs
    | some f =>
      match seen.lookup f with
      | none => 0 :: daily_cases_aux ((f, r.cases) :: seen) rs
      | some prev => (r.cases - prev) :: daily_cases_aux ((f, r.cases) :: seen) rs

/-- The `daily_cases` column: per-region first difference of the cumulative
counts, with the first value of each region (and rows with a missing
region key) defaulted to `0` by `fillna(0)`. -/
def daily_cases (tbl : List Row) : List ℚ :=
  daily_cases_aux [] tbl

/-- Cumulative counts of the rows of region `f`, in table order
(`cvd_df[cvd_df["fips"]==f]["cases"]`). -/
def casesOf (tbl : List Row) (f : String) : List ℚ :=
  (tbl.filter (fun r => decide (r.fips = some f))).map Row.cases

/-- Restriction of a column to the rows of region `f`, in table order. -/
def subSeq {α : Type} (tbl : List Row) (xs : List α) (f : String) : List α :=
  ((tbl.zip xs).filter (fun p => decide (p.1.fips = some f))).map Prod.snd

/-- Spec-side description, for claim C8: first differences of a cumulative
sequence starting from a previous value `prev`. -/
def specDiffsFrom : ℚ → List ℚ → List ℚ
  | _, [] => []
  | prev, c :: cs => (c - prev) :: specDiffsFrom c cs

/-- Spec-side description, for claim C8: per-region incremental series, the
first value fixed to `0` and every later value the difference of
consecutive cumulative counts. -/
def specDiffs0 : List ℚ → List ℚ
  | [] => []
  | c :: cs => 0 :: specDiffsFrom c cs

/-- Are all entries of the column slice defined (non-NaN)? -/
def allSome (l : List (Option ℚ)) : Bool :=
  l.all Option.isSome

/-- Sum of the defined entries. -/
def sumSome (l : List (Option ℚ)) : ℚ :=
  (l.filterMap id).sum

/-- Pandas `Series.max()`: maximum of the defined entries, NaN when there
is none. -/
def maxSkipna (xs : List (Option ℚ)) : Option ℚ :=
  (xs.filterMap id).max?

/-- Pandas `Series.mean()`: mean of the defined entries, NaN when there is
none. -/
def meanSkipna (xs : List (Option ℚ)) : Option ℚ :=
  if (xs.filterMap id).length = 0 then none
  else some ((xs.filterMap id).sum / ((xs.filterMap id).length : ℚ))

/-- Python `s[-7:]` generalised to `s[-n:]`: the trailing `n` entries, the
whole list when it is shorter. -/
def lastN (n : Nat) (xs : List (Option ℚ)) : List (Option ℚ) :=
  xs.drop (xs.length - n)

/-- The rolling window ending at position `k`: positions `k-6 … k`. -/
def window7 (xs : List (Option ℚ)) (k : Nat) : List (Option ℚ) :=
  (xs.take (k + 1)).drop (k + 1 - 7)

/-- `cvd_df[cvd_df["fips"]==f][case_column]` for a column paired with its
rows. -/
def groupColP (ps : List (Row × Option ℚ)) (f : String) : List (Option ℚ) :=
  (ps.filter (fun p => decide (p.1.fips = some f))).map Prod.snd

/-- Region `f`'s slice of a column. -/
def groupCol (tbl : List Row) (col : List (Option ℚ)) (f : String) : List (Option ℚ) :=
  groupColP (tbl.zip col) f

/-- The smoothing loop of `add_sma_and_ratio`: for every region the rolling
7-mean of its own sub-series (`rolling(window=7).mean()`, so `min_periods`
is 7: a value is defined only when the window holds 7 defined entries),
reassigned to the rows by index alignment.  Modelled as one stream over the
(row, value) pairs carrying, per region key, the trailing window `buf` of
that region's last at-most-7 values; rows with a missing key belong to no
group and receive NaN. -/
def smoothAux (bufs : List (String × List (Option ℚ))) : List (Row × Option ℚ) → List (Option ℚ)
  | [] => []
  | (r, v) :: rest =>
    match r.fips with
    | none => none :: smoothAux bufs rest
    | some f =>
      let buf := (bufs.lookup f).getD []
      let b := if buf.length < 7 then buf ++ [v] else buf.tail ++ [v]
      (if b.length = 7 ∧ allSome b = true then some (sumSome b / 7) else none)
        :: smoothAux ((f, b) :: bufs) rest

/-- `cvd_df[case_column] = pd.concat(county_SMA)`: the new contents of the
case column after per-region smoothing. -/
def smoothColumn (tbl : List Row) (col : List (Option ℚ)) : List (Option ℚ) :=
  smoothAux [] (tbl.zip col)

/-- Rows of region `f` earlier than the cutoff `d1`
(`(cvd_df["fips"]==f) & (cvd_df["date"] < d1)`). -/
def refPairs (ps : List (Row × Option ℚ)) (d1 : Nat) (f : String) : List (Row × Option ℚ) :=
  ps.filter (fun p => decide (p.1.fips = some f) && dateLt p.1.date d1)

/-- Rows of region `f` strictly between the cutoffs
(`(cvd_df["fips"]==f) & (cvd_df["date"] > d1) & (cvd_df["date"] < d2)`). -/
def compPairs (ps : List (Row × Option ℚ)) (d1 d2 : Nat) (f : String) : List (Row × Option ℚ) :=
  ps.filter (fun p => decide (p.1.fips = some f) && dateGt p.1.date d1 && dateLt p.1.date d2)

/-- Column values of the reference window of region `f`. -/
def refWindow (tbl : List Row) (col : List (Option ℚ)) (d1 : Nat) (f : String) : List (Option ℚ) :=
  (refPairs (tbl.zip col) d1 f).map Prod.snd

/-- Column values of the comparison window of region `f`. -/
def compWindow (tbl : List Row) (col : List (Option ℚ)) (d1 d2 : Nat) (f : String) : List (Option ℚ) :=
  (compPairs (tbl.zip col) d1 d2 f).map Prod.snd

/-- `county_prev_peak` entry for one region: the `.max()` of the smoothed
column over the reference window. -/
def county_prev_peak (tbl : List Row) (col : List (Option ℚ)) (d1 : Nat) (f : String) : Option ℚ :=
  maxSkipna (refWindow tbl col d1 f)

/-- `county_curr_ave` entry for one region: the `.mean()` of the last 7
entries (`[-7:]`, a positional slice) of the smoothed column restricted to
the comparison window. -/
def county_curr_ave (tbl : List Row) (col : List (Option ℚ)) (d1 d2 : Nat) (f : String) : Option ℚ :=
  meanSkipna (lastN 7 (compWindow tbl col d1 d2 f))

/-- Value of a float division of two pandas reduction results: a finite
value, a signed infinity, or NaN. -/
inductive RVal where
  | undef : RVal
  | posinf : RVal
  | neginf : RVal
  | fin : ℚ → RVal
deriving DecidableEq

/-- IEEE division of the two numpy `float64` scalars produced by `.mean()`
and `.max()` (`none` being NaN): NaN operands propagate NaN, a zero
denominator gives NaN for `0/0` and a signed infinity otherwise.  No value
of this division raises an exception. -/
def fdiv : Option ℚ → Option ℚ → RVal
  | none, _ => RVal.undef
  | some _, none => RVal.undef
  | some x, some y =>
    if y = 0 then (if x = 0 then RVal.undef else if 0 < x then RVal.posinf else RVal.neginf)
    else RVal.fin (x / y)

/-- The notebook's `safe_div`.  Its `try`/`except ZeroDivisionError` wraps
plain division, but the operands are numpy `float64` scalars, whose
division never raises `ZeroDivisionError`; so the handler is unreachable
and `safe_div` is exactly `fdiv`. -/
def safe_div (x y : Option ℚ) : RVal :=
  fdiv x y

/-- Lexicographic comparison of character lists by code point, the order
pandas uses when sorting string group keys. -/
def chLeB : List Char → List Char → Bool
  | [], _ => true
  | _ :: _, [] => false
  | a :: as, b :: bs =>
    if a.toNat < b.toNat then true
    else if b.toNat < a.toNat then false
    else chLeB as bs

/-- Lexicographic comparison of region keys. -/
def strLeB (x y : String) : Bool :=
  chLeB x.data y.data

/-- Insertion into a sorted list of region keys. -/
def insertStr (x : String) : List String → List String
  | [] => [x]
  | y :: ys => if strLeB x y then x :: y :: ys else y :: insertStr x ys

/-- Insertion sort of region keys. -/
def sortStr (l : List String) : List String :=
  l.foldr insertStr []

/-- First-occurrence-order distinct keys (`Series.unique()`), null keys
skipped. -/
def dedupAux (seen : List String) : List String → List String
  | [] => []
  | x :: xs => if x ∈ seen then dedupAux seen xs else x :: dedupAux (x :: seen) xs

/-- `counties_df["FIPS"].unique()`: the distinct non-null region keys; the
`groupby` that builds `counties_df` sorts them ascending. -/
def sortedFips (tbl : List Row) : List String :=
  sortStr (dedupAux [] (tbl.filterMap Row.fips))

/-- `add_sma_and_ratio(cvd_df, case_column)`: overwrites the case column
with its per-region rolling 7-mean, then for every county (in
`counties_df["FIPS"].unique()` order) divides the recent average by the
previous peak.  The first component is the new contents of
`cvd_df[case_column]` (the side effect on the input frame); the second is
the returned list of ratios. -/
def add_sma_and_ratio (tbl : List Row) (col : List (Option ℚ)) (d1 d2 : Nat) :
    List (Option ℚ) × List RVal :=
  let s := smoothColumn tbl col
  (s, (sortedFips tbl).map (fun f =>
    safe_div (county_curr_ave tbl s d1 d2 f) (county_prev_peak tbl s d1 f)))

/-- The uncalibrated pipeline of the notebook:
`add_sma_and_ratio(covid_df, "daily_cases")` with the notebook cutoffs,
applied to the incremental series derived from the cumulative counts. -/
def curr_to_peak (tbl : List Row) : List RVal :=
  ( add_sma_and_ratio tbl ((daily_cases tbl).map some) d20201001 d20210206).2

/-- A dataframe: its identity rows plus the derived numeric columns, keyed
by name (later bindings shadow earlier ones, modelling column
overwrites). -/
structure Frame where
  rows : List Row
  cols : List (String × List (Option ℚ))

/-- `df[name]` for a derived column: a missing name is a `KeyError`. -/
def Frame.getCol (df : Frame) (name : String) : Except String (List (Option ℚ)) :=
  match df.cols.lookup name with
  | some c => Except.ok c
  | none => Except.error name

/-- `df[name] = c`. -/
def Frame.setCol (df : Frame) (name : String) (c : List (Option ℚ)) : Frame :=
  ⟨df.rows, (name, c) :: df.cols⟩

/-- The ingestion cell: `covid_df["daily_cases"] = covid_df.groupby("fips")["cases"].diff().fillna(0)`. -/
def ingest (df : Frame) : Frame :=
  df.setCol "daily_cases" ((daily_cases df.rows).map some)

/-- One recalibration assignment
`np.where(covid_df["date"] < t, covid_df[src]*a, covid_df[src]*b)`:
reads the source column (failing when it does not exist) and scales each
value by the tier multiplier selected by its date; a NaT date fails the
`<` test and falls to the `else` multiplier, NaN values stay NaN. -/
def recalCol (df : Frame) (src : String) (t : Nat) (a b : ℚ) :
    Except String (List (Option ℚ)) :=
  (df.getCol src).map (fun c =>
    (df.rows.zip c).map (fun p =>
      if dateLt p.1.date t then p.2.map (fun v => v * a) else p.2.map (fun v => v * b)))

/-- `covid_df["daily_cases_low"]`: ×4 before 2020-06-01, ×2.1 after.  The
source column it reads is spelled `cases_new` in the notebook. -/
def daily_cases_low (df : Frame) : Except String (List (Option ℚ)) :=
  recalCol df "cases_new" d20200601 4 (21 / 10)

/-- `covid_df["daily_cases_med"]`: ×5.5 before 2020-06-01, ×2.1 after. -/
def daily_cases_med (df : Frame) : Except String (List (Option ℚ)) :=
  recalCol df "cases_new" d20200601 (11 / 2) (21 / 10)

/-- `covid_df["daily_cases_high"]`: ×7 before 2020-06-01, ×2.1 after. -/
def daily_cases_high (df : Frame) : Except String (List (Option ℚ)) :=
  recalCol df "cases_new" d20200601 7 (21 / 10)

/-- `add_sma_and_ratio` at the frame level: the returned frame is the state
of `cvd_df` after the call (its case column overwritten with the smoothed
series), alongside the returned ratios. -/
def add_sma_and_ratio_frame (df : Frame) (colName : String) (d1 d2 : Nat) :
    Frame × Except String (List RVal) :=
  match df.getCol colName with
  | Except.error e => (df, Except.error e)
  | Except.ok col =>
    (df.setCol colName (smoothColumn df.rows col),
     Except.ok ((sortedFips df.rows).map (fun f =>
       safe_div (county_curr_ave df.rows (smoothColumn df.rows col) d1 d2 f)
                (county_prev_peak df.rows (smoothColumn df.rows col) d1 f))))

/-- Is the sequence strictly increasing (each value below its successor)?
Used to state the hypothesis of claim C9. -/
def strictIncB : List ℚ → Bool
  | [] => true
  | [_] => true
  | a :: b :: rest => decide (a < b) && strictIncB (b :: rest)

/-- The rolling 7-mean value at position `k` of a series: defined exactly
when the window holds 7 defined entries. -/
def smaVal (xs : List (Option ℚ)) (k : Nat) : Option ℚ :=
  if (window7 xs k).length = 7 ∧ allSome (window7 xs k) = true
  then some (sumSome (window7 xs k) / 7) else none

/-- Concrete table for claim C1: county "A" has no observation before
2020-10-01 (so its peak is the max of an empty selection, NaN), county "B"
has constant cumulative count 0 (so its peak and recent average are both
exactly 0). -/
def exTbl1 : List Row :=
  [⟨some "A", some 20201101, 0⟩, ⟨some "A", some 20201102, 1⟩,
   ⟨some "A", some 20201103, 2⟩, ⟨some "A", some 20201104, 3⟩,
   ⟨some "A", some 20201105, 4⟩, ⟨some "A", some 20201106, 5⟩,
   ⟨some "A", some 20201107, 6⟩,
   ⟨some "B", some 20200901, 0⟩, ⟨some "B", some 20200902, 0⟩,
   ⟨some "B", some 20200903, 0⟩, ⟨some "B", some 20200904, 0⟩,
   ⟨some "B", some 20200905, 0⟩, ⟨some "B", some 20200906, 0⟩,
   ⟨some "B", some 20200907, 0⟩, ⟨some "B", some 20201101, 0⟩]

/-- Concrete table for claim C3: one county, sixteen daily rows. -/
def exTbl3 : List Row :=
  [⟨some "A", some 0, 0⟩, ⟨some "A", some 1, 0⟩, ⟨some "A", some 2, 0⟩,
   ⟨some "A", some 3, 0⟩, ⟨some "A", some 4, 0⟩, ⟨some "A", some 5, 0⟩,
   ⟨some "A", some 6, 0⟩, ⟨some "A", some 7, 0⟩, ⟨some "A", some 8, 0⟩,
   ⟨some "A", some 9, 0⟩, ⟨some "A", some 10, 0⟩, ⟨some "A", some 11, 0⟩,
   ⟨some "A", some 12, 0⟩, ⟨some "A", some 13, 0⟩, ⟨some "A", some 14, 0⟩,
   ⟨some "A", some 15, 0⟩]

/-- Concrete incremental column for claim C3: value `i` at position `i`. -/
def exCol3 : List (Option ℚ) :=
  [some 0, some 1, some 2, some 3, some 4, some 5, some 6, some 7,
   some 8, some 9, some 10, some 11, some 12, some 13, some 14, some 15]

/-- Concrete table for claim C4: its third row has no region key. -/
def exTbl4 : List Row :=
  [⟨some "A", some 0, 10⟩, ⟨some "A", some 1, 15⟩,
   ⟨none, some 2, 100⟩, ⟨some "A", some 3, 17⟩]

/-- Concrete table for claims C8 and C9: two counties with interleaved
rows; county "A" has strictly increasing cumulative counts. -/
def exTbl9 : List Row :=
  [⟨some "A", some 0, 10⟩, ⟨some "B", some 0, 3⟩,
   ⟨some "A", some 1, 15⟩, ⟨some "B", some 1, 7⟩,
   ⟨some "A", some 2, 21⟩]

/-- Concrete table for claim C5: two counties with alternating rows,
eight observations each. -/
def exTbl5 : List Row :=
  [⟨some "A", some 0, 0⟩, ⟨some "B", some 0, 0⟩,
   ⟨some "A", some 1, 0⟩, ⟨some "B", some 1, 0⟩,
   ⟨some "A", some 2, 0⟩, ⟨some "B", some 2, 0⟩,
   ⟨some "A", some 3, 0⟩, ⟨some "B", some 3, 0⟩,
   ⟨some "A", some 4, 0⟩, ⟨some "B", some 4, 0⟩,
   ⟨some "A", some 5, 0⟩, ⟨some "B", some 5, 0⟩,
   ⟨some "A", some 6, 0⟩, ⟨some "B", some 6, 0⟩,
   ⟨some "A", some 7, 0⟩, ⟨some "B", some 7, 0⟩]

/-- Concrete column for claim C5: county "A" carries 1…8 and county "B"
carries 101…108, so a window mixing counties would be visible at once. -/
def exCol5 : List (Option ℚ) :=
  [some 1, some 101, some 2, some 102, some 3, some 103, some 4, some 104,
   some 5, some 105, some 6, some 106, some 7, some 107, some 8, some 108]

/-- Concrete table for claims C6 and C7. -/
def exTbl6 : List Row :=
  [⟨some "A", some 5, 0⟩, ⟨some "A", some 6, 0⟩, ⟨some "A", some 7, 0⟩]

/-- Concrete column for claims C6 and C7: a NaN in the middle. -/
def exCol6 : List (Option ℚ) :=
  [some 1, none, some 3]

/-! ## Helper lemmas -/

theorem max?_some_iff_q (xs : List ℚ) (a : ℚ) :
    xs.max? = some a ↔ a ∈ xs ∧ ∀ b ∈ xs, b ≤ a :=
  @List.max?_eq_some_iff ℚ a _ _ ⟨fun h h2 => le_antisymm h h2⟩ (le_refl) (max_choice)
    (fun _ _ _ => max_le_iff) xs

theorem filter_of_filter_stronger {α : Type} (p q : α → Bool) (l : List α)
    (h : ∀ a, p a = true → q a = true) :
    (l.filter q).filter p = l.filter p := by
  induction l with
  | nil => rfl
  | cons a t ih =>
    cases hq : q a with
    | true =>
      simp only [List.filter_cons, hq, if_true]
      cases hp : p a <;> simp [List.filter_cons, hp, ih]
    | false =>
      have hp : p a = false := by
        cases hpa : p a with
        | true => exact absurd (h a hpa) (by simp [hq])
        | false => rfl
      simp [List.filter_cons, hq, hp, ih]

theorem dateLt_ne_cutoff (d : Option Nat) (c : Nat) (h : dateLt d c = true) :
    decide (d ≠ some c) = true := by
  cases d with
  | none => simp at h ⊢
  | some x =>
    simp only [dateLt, decide_eq_true_eq] at h
    simp only [ne_eq, Option.some.injEq, decide_eq_true_eq]
    omega

theorem dateGt_ne_cutoff (d : Option Nat) (c : Nat) (h : dateGt d c = true) :
    decide (d ≠ some c) = true := by
  cases d with
  | none => simp at h ⊢
  | some x =>
    simp only [dateGt, decide_eq_true_eq] at h
    simp only [ne_eq, Option.some.injEq, decide_eq_true_eq]
    omega

theorem daily_cases_aux_length (tbl : List Row) :
    ∀ seen, (daily_cases_aux seen tbl).length = tbl.length := by
  induction tbl with
  | nil => intro seen; rfl
  | cons r rs ih =>
    intro seen
    cases hfr : r.fips with
    | none => simp [daily_cases_aux, hfr, ih]
    | some f =>
      cases hl : seen.lookup f <;> simp [daily_cases_aux, hfr, hl, ih]

theorem daily_cases_aux_get?_of_fips_none (tbl : List Row) :
    ∀ (seen : List (String × ℚ)) (j : Nat) (h : j < tbl.length),
      (tbl.get ⟨j, h⟩).fips = none → (daily_cases_aux seen tbl).get? j = some 0 := by
  induction tbl with
  | nil => intro seen j h; simp at h
  | cons r rs ih =>
    intro seen j h hf
    cases j with
    | zero =>
      simp only [List.get] at hf
      simp [daily_cases_aux, hf]
    | succ j =>
      simp only [List.get_cons_succ] at hf
      have hj : j < rs.length := by simpa using h
      cases hfr : r.fips with
      | none =>
        simpa [daily_cases_aux, hfr] using ih seen j hj hf
      | some f =>
        cases hl : seen.lookup f <;>
          simpa [daily_cases_aux, hfr, hl] using ih _ j hj hf

theorem subSeq_cons_pos {α : Type} (r : Row) (rs : List Row) (x : α) (xs : List α)
    (f : String) (h : r.fips = some f) :
    subSeq (r :: rs) (x :: xs) f = x :: subSeq rs xs f := by
  simp [subSeq, h]

theorem subSeq_cons_neg {α : Type} (r : Row) (rs : List Row) (x : α) (xs : List α)
    (f : String) (h : ¬(r.fips = some f)) :
    subSeq (r :: rs) (x :: xs) f = subSeq rs xs f := by
  simp [subSeq, h]

theorem casesOf_cons_pos (r : Row) (rs : List Row) (f : String) (h : r.fips = some f) :
    casesOf (r :: rs) f = r.cases :: casesOf rs f := by
  simp [casesOf, h]

theorem casesOf_cons_neg (r : Row) (rs : List Row) (f : String) (h : ¬(r.fips = some f)) :
    casesOf (r :: rs) f = casesOf rs f := by
  simp [casesOf, h]

theorem subSeq_daily_cases_aux (tbl : List Row) :
    ∀ (seen : List (String × ℚ)) (f : String),
      subSeq tbl (daily_cases_aux seen tbl) f
        = (match seen.lookup f with
           | none => specDiffs0 (casesOf tbl f)
           | some p => specDiffsFrom p (casesOf tbl f)) := by
  induction tbl with
  | nil =>
    intro seen f
    cases h : seen.lookup f <;>
      simp [subSeq, daily_cases_aux, casesOf, specDiffs0, specDiffsFrom, h]
  | cons r rs ih =>
    intro seen f
    cases hfr : r.fips with
    | none =>
      have hne : ¬(r.fips = some f) := by simp [hfr]
      simp only [daily_cases_aux, hfr]
      rw [subSeq_cons_neg r rs _ _ f hne, casesOf_cons_neg r rs f hne]
      exact ih seen f
    | some g =>
      by_cases hgf : g = f
      · subst hgf
        have hmem : r.fips = some g := hfr
        have ihg : subSeq rs (daily_cases_aux ((g, r.cases) :: seen) rs) g
            = specDiffsFrom r.cases (casesOf rs g) := by
          have h0 := ih ((g, r.cases) :: seen) g
          have hlook : ((g, r.cases) :: seen).lookup g = some r.cases := by
            simp [List.lookup]
          rw [hlook] at h0
          exact h0
        cases h : seen.lookup g with
        | none =>
          simp only [daily_cases_aux, hfr, h]
          rw [subSeq_cons_pos r rs _ _ g hmem, casesOf_cons_pos r rs g hmem, ihg]
          rfl
        | some p =>
          simp only [daily_cases_aux, hfr, h]
          rw [subSeq_cons_pos r rs _ _ g hmem, casesOf_cons_pos r rs g hmem, ihg]
          rfl
      · have hne : ¬(r.fips = some f) := by simp [hfr, hgf]
        have hbeq : (f == g) = false := beq_eq_false_iff_ne.mpr (Ne.symm hgf)
        have hlook : ((g, r.cases) :: seen).lookup f = seen.lookup f := by
          simp only [List.lookup, hbeq]
        have ihf : subSeq rs (daily_cases_aux ((g, r.cases) :: seen) rs) f
            = (match seen.lookup f with
               | none => specDiffs0 (casesOf rs f)
               | some p => specDiffsFrom p (casesOf rs f)) := by
          have h0 := ih ((g, r.cases) :: seen) f
          rw [hlook] at h0
          exact h0
        cases hg : seen.lookup g with
        | none =>
          simp only [daily_cases_aux, hfr, hg]
          rw [subSeq_cons_neg r rs _ _ f hne, casesOf_cons_neg r rs f hne]
          exact ihf
        | some p =>
          simp only [daily_cases_aux, hfr, hg]
          rw [subSeq_cons_neg r rs _ _ f hne, casesOf_cons_neg r rs f hne]
          exact ihf

theorem subSeq_daily_cases (tbl : List Row) (f : String) :
    subSeq tbl (daily_cases tbl) f = specDiffs0 (casesOf tbl f) := by
  have h := subSeq_daily_cases_aux tbl [] f
  simpa [daily_cases, List.lookup] using h

theorem specDiffsFrom_sum (c : List ℚ) : ∀ p, (specDiffsFrom p c).sum = c.getLastD p - p := by
  induction c with
  | nil => intro p; simp [specDiffsFrom]
  | cons a t ih =>
    intro p
    simp only [specDiffsFrom, List.sum_cons, List.getLastD_cons, ih a]
    ring

theorem specDiffs0_sum (c : List ℚ) : (specDiffs0 c).sum = c.getLastD 0 - c.headD 0 := by
  cases c with
  | nil => simp [specDiffs0]
  | cons a t =>
    simp only [specDiffs0, List.sum_cons, List.headD_cons]
    rw [specDiffsFrom_sum, List.getLastD_cons]
    ring

theorem specDiffsFrom_nonneg (c : List ℚ) :
    ∀ p, strictIncB (p :: c) = true → ∀ v ∈ specDiffsFrom p c, 0 ≤ v := by
  induction c with
  | nil => intro p _ v hv; simp [specDiffsFrom] at hv
  | cons a t ih =>
    intro p h v hv
    simp only [strictIncB, Bool.and_eq_true, decide_eq_true_eq] at h
    rcases List.mem_cons.mp hv with hva | hvt
    · subst hva; linarith [h.1]
    · exact ih a (by simpa [strictIncB] using h.2) v hvt

theorem specDiffs0_nonneg (c : List ℚ) (h : strictIncB c = true) :
    ∀ v ∈ specDiffs0 c, 0 ≤ v := by
  cases c with
  | nil => intro v hv; simp [specDiffs0] at hv
  | cons a t =>
    intro v hv
    rcases List.mem_cons.mp hv with hv0 | hvt
    · simp [hv0]
    · exact specDiffsFrom_nonneg t a h v hvt

/-! ## Claim theorems -/

/-- Claim C2 (code_bug evidence): for every ingested table, the three
recalibration assignments read the column `cases_new`, which no cell of
the notebook ever creates (the incremental column is named
`daily_cases`); all three therefore fail with a `KeyError` instead of
producing the tier-scaled variant the claim describes. -/
theorem C2_recalibration_reads_missing_column (rows : List Row) :
    daily_cases_low (ingest ⟨rows, []⟩) = Except.error "cases_new"
    ∧ daily_cases_med (ingest ⟨rows, []⟩) = Except.error "cases_new"
    ∧ daily_cases_high (ingest ⟨rows, []⟩) = Except.error "cases_new" := by
  refine ⟨?_, ?_, ?_⟩ <;>
    simp [daily_cases_low, daily_cases_med, daily_cases_high, recalCol, ingest,
      Frame.setCol, Frame.getCol, List.lookup, Except.map]

/-- Claim C2, concrete instance: the recalibration cell fails on the
ingested example table. -/
theorem C2_witness :
    daily_cases_low (ingest ⟨exTbl4, []⟩) = Except.error "cases_new"
    ∧ daily_cases_med (ingest ⟨exTbl4, []⟩) = Except.error "cases_new"
    ∧ daily_cases_high (ingest ⟨exTbl4, []⟩) = Except.error "cases_new" :=
  C2_recalibration_reads_missing_column exTbl4

/-- Claim C4 (counterexample): ingesting a table whose third row has no
region key does not fail and does not drop the row: the whole table is
ingested and the keyless row gets incremental value 0. -/
theorem C4_counterexample :
    ingest ⟨exTbl4, []⟩
      = ⟨exTbl4, [("daily_cases", [some 0, some 5, some 0, some 2])]⟩
    ∧ exTbl4.get? 2 = some ⟨none, some 2, 100⟩ := by
  constructor
  · simp only [ingest, Frame.setCol, Frame.mk.injEq]
    refine ⟨by trivial, ?_⟩
    norm_num [daily_cases, daily_cases_aux, exTbl4, List.lookup]
  · rfl

/-- Claim C4 (amended): ingestion is total; a row whose region key is
missing is kept, not reported, and its incremental value defaults to 0
(`groupby` drops null keys, so the diff is NaN and `fillna(0)` turns it
into 0); the output column always has one value per input row. -/
theorem C4_ingestion_total (tbl : List Row) (j : Nat) (h : j < tbl.length)
    (hf : (tbl.get ⟨j, h⟩).fips = none) :
    (daily_cases tbl).length = tbl.length
    ∧ (daily_cases tbl).get? j = some 0 :=
  ⟨daily_cases_aux_length tbl [], daily_cases_aux_get?_of_fips_none tbl [] j h hf⟩

/-- Claim C4, concrete instance of the amended statement. -/
theorem C4_witness :
    2 < exTbl4.length
    ∧ ((daily_cases exTbl4).length = exTbl4.length
       ∧ (daily_cases exTbl4).get? 2 = some 0) :=
  ⟨by decide, C4_ingestion_total exTbl4 2 (by decide) (by decide)⟩

/-- Claim C8: for every region, the incremental series restricted to that
region is the first difference of that region's own cumulative counts —
computed from no other region's rows — and its first value is exactly 0
whatever the region's first cumulative count is. -/
theorem C8_first_difference_per_region (tbl : List Row) (f : String) :
    subSeq tbl (daily_cases tbl) f = specDiffs0 (casesOf tbl f)
    ∧ (subSeq tbl (daily_cases tbl) f).head?
        = (casesOf tbl f).head?.map (fun _ => (0 : ℚ)) := by
  refine ⟨subSeq_daily_cases tbl f, ?_⟩
  rw [subSeq_daily_cases tbl f]
  cases casesOf tbl f <;> simp [specDiffs0]

/-- Claim C8, concrete instance on an interleaved two-region table. -/
theorem C8_witness :
    subSeq exTbl9 (daily_cases exTbl9) "A" = specDiffs0 (casesOf exTbl9 "A")
    ∧ (subSeq exTbl9 (daily_cases exTbl9) "A").head?
        = (casesOf exTbl9 "A").head?.map (fun _ => (0 : ℚ)) :=
  C8_first_difference_per_region exTbl9 "A"

/-- Claim C9: for every region whose cumulative sequence is strictly
increasing, all incremental values are non-negative and they sum to the
last cumulative count minus the first. -/
theorem C9_increments_nonneg_and_telescope (tbl : List Row) (f : String)
    (hmono : strictIncB (casesOf tbl f) = true) :
    (∀ v ∈ subSeq tbl (daily_cases tbl) f, 0 ≤ v)
    ∧ (subSeq tbl (daily_cases tbl) f).sum
        = (casesOf tbl f).getLastD 0 - (casesOf tbl f).headD 0 := by
  rw [subSeq_daily_cases tbl f]
  exact ⟨specDiffs0_nonneg (casesOf tbl f) hmono, specDiffs0_sum (casesOf tbl f)⟩

/-- Claim C9, concrete instance: region "A" of the example table has
strictly increasing cumulative counts 10, 15, 21. -/
theorem C9_witness :
    strictIncB (casesOf exTbl9 "A") = true
    ∧ ((∀ v ∈ subSeq exTbl9 (daily_cases exTbl9) "A", 0 ≤ v)
       ∧ (subSeq exTbl9 (daily_cases exTbl9) "A").sum
           = (casesOf exTbl9 "A").getLastD 0 - (casesOf exTbl9 "A").headD 0) :=
  ⟨by decide, C9_increments_nonneg_and_telescope exTbl9 "A" (by decide)⟩

/-- Claim C10: an observation dated exactly on the first cutoff `d1`
contributes to neither the peak (filter: date strictly earlier than `d1`)
nor the recent average (filter: date strictly later than `d1`): removing
every pair dated `d1` changes neither quantity, for every region and
column. -/
theorem C10_boundary_date_excluded (tbl : List Row) (col : List (Option ℚ))
    (d1 d2 : Nat) (f : String) :
    county_prev_peak tbl col d1 f
      = maxSkipna ((refPairs ((tbl.zip col).filter
          (fun p => decide (p.1.date ≠ some d1))) d1 f).map Prod.snd)
    ∧ county_curr_ave tbl col d1 d2 f
      = meanSkipna (lastN 7 ((compPairs ((tbl.zip col).filter
          (fun p => decide (p.1.date ≠ some d1))) d1 d2 f).map Prod.snd)) := by
  constructor
  · unfold county_prev_peak refWindow refPairs
    rw [filter_of_filter_stronger _ _ (tbl.zip col)]
    intro p hp
    simp only [Bool.and_eq_true] at hp
    exact dateLt_ne_cutoff p.1.date d1 hp.2
  · unfold county_curr_ave compWindow compPairs
    rw [filter_of_filter_stronger _ _ (tbl.zip col)]
    intro p hp
    simp only [Bool.and_eq_true] at hp
    exact dateGt_ne_cutoff p.1.date d1 hp.1.2

/-- Claim C7: for every region, the peak is the maximum of the defined
smoothed values at dates strictly before the cutoff `d1`: it is undefined
exactly when no defined value lies in the reference window, and otherwise
it is itself a defined value of the window that bounds every defined
value of the window from above. -/
theorem C7_previous_peak (tbl : List Row) (col : List (Option ℚ)) (d1 : Nat) (f : String) :
    (county_prev_peak tbl col d1 f = none
      ↔ (refWindow tbl col d1 f).filterMap id = [])
    ∧ ∀ v ∈ (refWindow tbl col d1 f).filterMap id,
        ∃ m, county_prev_peak tbl col d1 f = some m ∧ v ≤ m
          ∧ m ∈ (refWindow tbl col d1 f).filterMap id := by
  constructor
  · unfold county_prev_peak maxSkipna
    exact List.max?_eq_none_iff
  · intro v hv
    cases hm : county_prev_peak tbl col d1 f with
    | none =>
      have hemp : (refWindow tbl col d1 f).filterMap id = [] := by
        unfold county_prev_peak maxSkipna at hm
        exact List.max?_eq_none_iff.mp hm
      rw [hemp] at hv
      simp at hv
    | some m =>
      have h2 : ((refWindow tbl col d1 f).filterMap id).max? = some m := hm
      have h3 := (max?_some_iff_q _ m).mp h2
      exact ⟨m, rfl, h3.2 v hv, h3.1⟩

/-- Claim C7, concrete instance: reference window values 1, NaN, 3 give
peak 3. -/
theorem C7_witness :
    (county_prev_peak exTbl6 exCol6 9 "A" = none
      ↔ (refWindow exTbl6 exCol6 9 "A").filterMap id = [])
    ∧ ∀ v ∈ (refWindow exTbl6 exCol6 9 "A").filterMap id,
        ∃ m, county_prev_peak exTbl6 exCol6 9 "A" = some m ∧ v ≤ m
          ∧ m ∈ (refWindow exTbl6 exCol6 9 "A").filterMap id :=
  C7_previous_peak exTbl6 exCol6 9 "A"

/-- Claim C6: for every region whose comparison-window rows are in
ascending date order (the layout of the source data), the recent average
is the skip-NaN mean of the trailing 7 entries of the date-filtered
subsequence: the trailing slice has length `min 7 n` (so all entries when
fewer than 7 exist), it is a suffix of the window, every date dropped
precedes every date kept, NaN entries are excluded from the mean, and the
mean is NaN when no defined entry remains. -/
theorem C6_recent_average (tbl : List Row) (col : List (Option ℚ)) (d1 d2 : Nat) (f : String)
    (hsort : ((compPairs (tbl.zip col) d1 d2 f).filterMap
        (fun p => p.1.date)).Pairwise (fun a b => a ≤ b)) :
    county_curr_ave tbl col d1 d2 f
      = (if ((lastN 7 (compWindow tbl col d1 d2 f)).filterMap id).length = 0 then none
         else some (((lastN 7 (compWindow tbl col d1 d2 f)).filterMap id).sum
             / (((lastN 7 (compWindow tbl col d1 d2 f)).filterMap id).length : ℚ)))
    ∧ (lastN 7 (compWindow tbl col d1 d2 f)).length
        = min 7 (compWindow tbl col d1 d2 f).length
    ∧ (compWindow tbl col d1 d2 f).take ((compWindow tbl col d1 d2 f).length - 7)
        ++ lastN 7 (compWindow tbl col d1 d2 f) = compWindow tbl col d1 d2 f
    ∧ ∀ a ∈ ((compPairs (tbl.zip col) d1 d2 f).take
          ((compPairs (tbl.zip col) d1 d2 f).length - 7)).filterMap (fun p => p.1.date),
      ∀ b ∈ ((compPairs (tbl.zip col) d1 d2 f).drop
          ((compPairs (tbl.zip col) d1 d2 f).length - 7)).filterMap (fun p => p.1.date),
        a ≤ b := by
  refine ⟨rfl, ?_, List.take_append_drop _ _, ?_⟩
  · simp only [lastN, List.length_drop]
    omega
  · intro a ha b hb
    have hsplit : ((compPairs (tbl.zip col) d1 d2 f).take
          ((compPairs (tbl.zip col) d1 d2 f).length - 7)).filterMap (fun p => p.1.date)
        ++ ((compPairs (tbl.zip col) d1 d2 f).drop
          ((compPairs (tbl.zip col) d1 d2 f).length - 7)).filterMap (fun p => p.1.date)
        = (compPairs (tbl.zip col) d1 d2 f).filterMap (fun p => p.1.date) := by
      rw [← List.filterMap_append, List.take_append_drop]
    rw [← hsplit] at hsort
    exact (List.pairwise_append.mp hsort).2.2 a ha b hb

/-- Claim C6, concrete instance: comparison window values 1, NaN, 3 give
recent average 2. -/
theorem C6_witness :
    ((compPairs (exTbl6.zip exCol6) 4 10 "A").filterMap
        (fun p => p.1.date)).Pairwise (fun a b => a ≤ b)
    ∧ (county_curr_ave exTbl6 exCol6 4 10 "A"
        = (if ((lastN 7 (compWindow exTbl6 exCol6 4 10 "A")).filterMap id).length = 0 then none
           else some (((lastN 7 (compWindow exTbl6 exCol6 4 10 "A")).filterMap id).sum
               / (((lastN 7 (compWindow exTbl6 exCol6 4 10 "A")).filterMap id).length : ℚ)))
      ∧ (lastN 7 (compWindow exTbl6 exCol6 4 10 "A")).length
          = min 7 (compWindow exTbl6 exCol6 4 10 "A").length
      ∧ (compWindow exTbl6 exCol6 4 10 "A").take
            ((compWindow exTbl6 exCol6 4 10 "A").length - 7)
          ++ lastN 7 (compWindow exTbl6 exCol6 4 10 "A") = compWindow exTbl6 exCol6 4 10 "A"
      ∧ ∀ a ∈ ((compPairs (exTbl6.zip exCol6) 4 10 "A").take
            ((compPairs (exTbl6.zip exCol6) 4 10 "A").length - 7)).filterMap (fun p => p.1.date),
        ∀ b ∈ ((compPairs (exTbl6.zip exCol6) 4 10 "A").drop
            ((compPairs (exTbl6.zip exCol6) 4 10 "A").length - 7)).filterMap (fun p => p.1.date),
          a ≤ b) :=
  ⟨by decide, C6_recent_average exTbl6 exCol6 4 10 "A" (by decide)⟩

/-- Claim C10, concrete instance. -/
theorem C10_witness :
    county_prev_peak exTbl6 exCol6 6 "A"
      = maxSkipna ((refPairs ((exTbl6.zip exCol6).filter
          (fun p => decide (p.1.date ≠ some 6))) 6 "A").map Prod.snd)
    ∧ county_curr_ave exTbl6 exCol6 6 10 "A"
      = meanSkipna (lastN 7 ((compPairs ((exTbl6.zip exCol6).filter
          (fun p => decide (p.1.date ≠ some 6))) 6 10 "A").map Prod.snd)) :=
  C10_boundary_date_excluded exTbl6 exCol6 6 10 "A"

theorem groupColP_append (l1 l2 : List (Row × Option ℚ)) (f : String) :
    groupColP (l1 ++ l2) f = groupColP l1 f ++ groupColP l2 f := by
  simp [groupColP, List.filter_append]

theorem groupColP_cons_pos (r : Row) (v : Option ℚ) (rest : List (Row × Option ℚ))
    (f : String) (h : r.fips = some f) :
    groupColP ((r, v) :: rest) f = v :: groupColP rest f := by
  simp [groupColP, h]

theorem groupColP_cons_neg (r : Row) (v : Option ℚ) (rest : List (Row × Option ℚ))
    (f : String) (h : ¬(r.fips = some f)) :
    groupColP ((r, v) :: rest) f = groupColP rest f := by
  simp [groupColP, h]

theorem lastN_length (xs : List (Option ℚ)) : (lastN 7 xs).length = min 7 xs.length := by
  simp only [lastN, List.length_drop]
  omega

theorem lastN_short (xs : List (Option ℚ)) (h : xs.length ≤ 7) : lastN 7 xs = xs := by
  have e : xs.length - 7 = 0 := by omega
  simp [lastN, e]

theorem lastN_push (xs : List (Option ℚ)) (v : Option ℚ) :
    (if (lastN 7 xs).length < 7 then lastN 7 xs ++ [v] else (lastN 7 xs).tail ++ [v])
      = lastN 7 (xs ++ [v]) := by
  by_cases h : xs.length < 7
  · rw [lastN_short xs (by omega), lastN_short (xs ++ [v]) (by simp; omega), if_pos h]
  · have hc : ¬((lastN 7 xs).length < 7) := by
      rw [lastN_length]; omega
    rw [if_neg hc]
    show (xs.drop (xs.length - 7)).tail ++ [v] = (xs ++ [v]).drop ((xs ++ [v]).length - 7)
    rw [List.tail_drop]
    simp only [List.length_append, List.length_singleton]
    have e : xs.length + 1 - 7 = (xs.length - 7) + 1 := by omega
    rw [e, List.drop_append_of_le_length (by omega)]

theorem window7_front (S : List (Option ℚ)) (v : Option ℚ) (R : List (Option ℚ)) :
    window7 (S ++ v :: R) S.length = lastN 7 (S ++ [v]) := by
  unfold window7 lastN
  rw [List.append_cons S v R, List.take_left' (show (S ++ [v]).length = S.length + 1 by simp)]
  congr 1
  simp

theorem smaVal_emit (S : List (Option ℚ)) (v : Option ℚ) (R : List (Option ℚ)) :
    smaVal (S ++ v :: R) S.length
      = (if (lastN 7 (S ++ [v])).length = 7 ∧ allSome (lastN 7 (S ++ [v])) = true
         then some (sumSome (lastN 7 (S ++ [v])) / 7) else none) := by
  unfold smaVal
  rw [window7_front]

theorem smoothAux_subSeq (pairs : List (Row × Option ℚ)) :
    ∀ (pre : List (Row × Option ℚ)) (bufs : List (String × List (Option ℚ))) (f : String),
      (∀ g : String, (bufs.lookup g).getD [] = lastN 7 (groupColP pre g)) →
      subSeq (pairs.map Prod.fst) (smoothAux bufs pairs) f
        = (List.range (groupColP pairs f).length).map
            (fun k => smaVal (groupColP (pre ++ pairs) f) ((groupColP pre f).length + k)) := by
  induction pairs with
  | nil =>
    intro pre bufs f hb
    simp [subSeq, smoothAux, groupColP]
  | cons rv rest ih =>
    obtain ⟨r, v⟩ := rv
    intro pre bufs f hb
    cases hfr : r.fips with
    | none =>
      have hne : ¬(r.fips = some f) := by simp [hfr]
      have hstep : smoothAux bufs ((r, v) :: rest) = none :: smoothAux bufs rest := by
        simp [smoothAux, hfr]
      rw [List.map_cons, hstep, subSeq_cons_neg r _ _ _ f hne]
      have hpre : ∀ g : String, groupColP (pre ++ [(r, v)]) g = groupColP pre g := by
        intro g
        rw [groupColP_append]
        simp [groupColP, hfr]
      have hb2 : ∀ g, (bufs.lookup g).getD [] = lastN 7 (groupColP (pre ++ [(r, v)]) g) := by
        intro g
        rw [hpre g]
        exact hb g
      rw [ih (pre ++ [(r, v)]) bufs f hb2]
      rw [groupColP_cons_neg r v rest f hne]
      simp only [hpre f, List.append_assoc, List.singleton_append]
    | some f0 =>
      have hbuf : (bufs.lookup f0).getD [] = lastN 7 (groupColP pre f0) := hb f0
      have hstep : smoothAux bufs ((r, v) :: rest)
          = (if (lastN 7 (groupColP pre f0 ++ [v])).length = 7
                ∧ allSome (lastN 7 (groupColP pre f0 ++ [v])) = true
             then some (sumSome (lastN 7 (groupColP pre f0 ++ [v])) / 7) else none)
            :: smoothAux ((f0, lastN 7 (groupColP pre f0 ++ [v])) :: bufs) rest := by
        simp only [smoothAux, hfr, hbuf, lastN_push]
      have hS1 : groupColP (pre ++ [(r, v)]) f0 = groupColP pre f0 ++ [v] := by
        rw [groupColP_append]
        simp [groupColP, hfr]
      have hOther : ∀ g, g ≠ f0 → groupColP (pre ++ [(r, v)]) g = groupColP pre g := by
        intro g hg
        rw [groupColP_append]
        simp [groupColP, hfr, Ne.symm hg]
      have hb2 : ∀ g, ((((f0, lastN 7 (groupColP pre f0 ++ [v])) :: bufs).lookup g).getD [])
          = lastN 7 (groupColP (pre ++ [(r, v)]) g) := by
        intro g
        by_cases hg : g = f0
        · subst hg
          simp [List.lookup, hS1]
        · have hbeq : (g == f0) = false := beq_eq_false_iff_ne.mpr hg
          simp [List.lookup, hbeq, hOther g hg, hb g]
      have ihx := ih (pre ++ [(r, v)]) ((f0, lastN 7 (groupColP pre f0 ++ [v])) :: bufs) f hb2
      by_cases hff : f0 = f
      · subst hff
        rw [List.map_cons, hstep, subSeq_cons_pos r _ _ _ f0 hfr, ihx]
        rw [groupColP_cons_pos r v rest f0 hfr]
        rw [List.length_cons, List.range_succ_eq_map, List.map_cons, List.map_map]
        have hF : groupColP (pre ++ (r, v) :: rest) f0
            = groupColP pre f0 ++ v :: groupColP rest f0 := by
          rw [groupColP_append, groupColP_cons_pos r v rest f0 hfr]
        congr 1
        · rw [Nat.add_zero, hF, smaVal_emit]
        · apply List.map_congr_left
          intro k _
          simp only [Function.comp_apply, hS1, List.append_assoc, List.singleton_append, hF]
          congr 1
          simp [List.length_append]
          omega
      · have hne : ¬(r.fips = some f) := by simp [hfr, hff]
        rw [List.map_cons, hstep, subSeq_cons_neg r _ _ _ f hne, ihx]
        rw [groupColP_cons_neg r v rest f hne]
        have h1 : groupColP (pre ++ [(r, v)]) f = groupColP pre f :=
          hOther f (fun hh => hff hh.symm)
        simp only [h1, List.append_assoc, List.singleton_append]

theorem smoothAux_length (pairs : List (Row × Option ℚ)) :
    ∀ bufs, (smoothAux bufs pairs).length = pairs.length := by
  induction pairs with
  | nil => intro bufs; rfl
  | cons rv rest ih =>
    obtain ⟨r, v⟩ := rv
    intro bufs
    cases hfr : r.fips <;> simp [smoothAux, hfr, ih]

theorem mem_groupCol (tbl : List Row) (col : List (Option ℚ)) (f : String) (x : Option ℚ)
    (hx : x ∈ groupCol tbl col f) : x ∈ col := by
  simp only [groupCol, groupColP, List.mem_map, List.mem_filter] at hx
  obtain ⟨⟨a, b⟩, ⟨hpz, _⟩, hps⟩ := hx
  subst hps
  exact (List.of_mem_zip hpz).2

theorem window7_mem (xs : List (Option ℚ)) (k : Nat) (x : Option ℚ)
    (hx : x ∈ window7 xs k) : x ∈ xs :=
  List.mem_of_mem_take (List.mem_of_mem_drop hx)

theorem window7_length_of_lt (xs : List (Option ℚ)) (k : Nat) (h : k < xs.length) :
    (window7 xs k).length = min 7 (k + 1) := by
  simp only [window7, List.length_drop, List.length_take]
  omega

/-- Claim C5: the smoothed column has one value per table row, and for
every region its slice of the smoothed column carries, at the region's
own position `k`, the arithmetic mean of that region's values at
positions `k-6 … k` when those 7 positions exist, and NaN otherwise —
computed from the region's own sub-series only, even on a table whose
regions are interleaved. -/
theorem C5_smoothing_per_region (tbl : List Row) (col : List (Option ℚ)) (f : String)
    (hlen : col.length = tbl.length) (hall : allSome col = true) :
    (smoothColumn tbl col).length = tbl.length
    ∧ subSeq tbl (smoothColumn tbl col) f
        = (List.range (groupCol tbl col f).length).map
            (fun k => if 7 ≤ k + 1
                      then some (sumSome (window7 (groupCol tbl col f) k) / 7)
                      else none) := by
  constructor
  · rw [smoothColumn, smoothAux_length, List.length_zip, hlen, Nat.min_self]
  · have hb : ∀ g : String, (([] : List (String × List (Option ℚ))).lookup g).getD []
        = lastN 7 (groupColP [] g) := by
      intro g
      simp [List.lookup, groupColP, lastN]
    have h := smoothAux_subSeq (tbl.zip col) [] [] f hb
    rw [List.map_fst_zip tbl col (le_of_eq hlen.symm)] at h
    simp only [List.nil_append] at h
    rw [smoothColumn, h]
    apply List.map_congr_left
    intro k hk
    have hk2 : k < (groupCol tbl col f).length := List.mem_range.mp hk
    have h0 : (groupColP ([] : List (Row × Option ℚ)) f).length = 0 := rfl
    rw [h0, Nat.zero_add]
    show smaVal (groupCol tbl col f) k = _
    unfold smaVal
    have hws : allSome (window7 (groupCol tbl col f) k) = true := by
      rw [allSome, List.all_eq_true]
      intro x hx
      have hxc : x ∈ col := mem_groupCol tbl col f x (window7_mem _ k x hx)
      exact (List.all_eq_true.mp hall) x hxc
    rw [window7_length_of_lt _ k hk2, hws]
    by_cases h7 : 7 ≤ k + 1
    · have hmin : min 7 (k + 1) = 7 := by omega
      simp [hmin, h7]
    · have hmin : ¬(min 7 (k + 1) = 7) := by omega
      simp [hmin, h7]

/-- Claim C5, concrete instance: two interleaved regions; the window for
region "A" averages only values carried by rows of "A". -/
theorem C5_witness :
    (exCol5.length = exTbl5.length ∧ allSome exCol5 = true)
    ∧ ((smoothColumn exTbl5 exCol5).length = exTbl5.length
       ∧ subSeq exTbl5 (smoothColumn exTbl5 exCol5) "A"
           = (List.range (groupCol exTbl5 exCol5 "A").length).map
               (fun k => if 7 ≤ k + 1
                         then some (sumSome (window7 (groupCol exTbl5 exCol5 "A") k) / 7)
                         else none)) :=
  ⟨⟨by decide, by decide⟩,
   C5_smoothing_per_region exTbl5 exCol5 "A" (by decide) (by decide)⟩

/-- Claim C3 (amended): the analyzer is deterministic — its ratios are a
function of the table rows and the pre-call column contents — but it is
not free of side effects: it overwrites the analysed column with its
smoothed series.  The rows and every other column are unchanged. -/
theorem C3_analyzer_frame_effect (df : Frame) (colName other : String) (d1 d2 : Nat)
    (col : List (Option ℚ)) (h : df.getCol colName = Except.ok col)
    (hne : other ≠ colName) :
    ( add_sma_and_ratio_frame df colName d1 d2).1.rows = df.rows
    ∧ ( add_sma_and_ratio_frame df colName d1 d2).1.getCol colName
        = Except.ok (smoothColumn df.rows col)
    ∧ ( add_sma_and_ratio_frame df colName d1 d2).1.getCol other = df.getCol other
    ∧ ( add_sma_and_ratio_frame df colName d1 d2).2
        = Except.ok ((sortedFips df.rows).map (fun f =>
            safe_div (county_curr_ave df.rows (smoothColumn df.rows col) d1 d2 f)
                     (county_prev_peak df.rows (smoothColumn df.rows col) d1 f))) := by
  have hbeq : (other == colName) = false := beq_eq_false_iff_ne.mpr hne
  have hlk : df.cols.lookup colName = some col := by
    unfold Frame.getCol at h
    cases hl : df.cols.lookup colName with
    | none => rw [hl] at h; exact absurd h (by simp)
    | some c => rw [hl] at h; simpa using h
  refine ⟨?_, ?_, ?_, ?_⟩ <;>
    simp [ add_sma_and_ratio_frame, Frame.getCol, Frame.setCol, List.lookup, hlk, hbeq]

/-- Claim C3, concrete instance of the amended statement. -/
theorem C3_frame_effect_witness :
    (Frame.getCol ⟨exTbl6, [("daily_cases", exCol6), ("deaths", exCol6)]⟩ "daily_cases"
        = Except.ok exCol6
     ∧ "deaths" ≠ "daily_cases")
    ∧ (( add_sma_and_ratio_frame ⟨exTbl6, [("daily_cases", exCol6), ("deaths", exCol6)]⟩
          "daily_cases" 4 10).1.rows = exTbl6
       ∧ ( add_sma_and_ratio_frame ⟨exTbl6, [("daily_cases", exCol6), ("deaths", exCol6)]⟩
            "daily_cases" 4 10).1.getCol "daily_cases"
          = Except.ok (smoothColumn exTbl6 exCol6)
       ∧ ( add_sma_and_ratio_frame ⟨exTbl6, [("daily_cases", exCol6), ("deaths", exCol6)]⟩
            "daily_cases" 4 10).1.getCol "deaths"
          = Frame.getCol ⟨exTbl6, [("daily_cases", exCol6), ("deaths", exCol6)]⟩ "deaths"
       ∧ ( add_sma_and_ratio_frame ⟨exTbl6, [("daily_cases", exCol6), ("deaths", exCol6)]⟩
            "daily_cases" 4 10).2
          = Except.ok ((sortedFips exTbl6).map (fun f =>
              safe_div (county_curr_ave exTbl6 (smoothColumn exTbl6 exCol6) 4 10 f)
                       (county_prev_peak exTbl6 (smoothColumn exTbl6 exCol6) 4 f)))) :=
  ⟨⟨by simp [Frame.getCol, List.lookup], by decide⟩,
   C3_analyzer_frame_effect ⟨exTbl6, [("daily_cases", exCol6), ("deaths", exCol6)]⟩
     "daily_cases" "deaths" 4 10 exCol6 (by simp [Frame.getCol, List.lookup]) (by decide)⟩

/-- Claim C1 (code_bug evidence): on a table with a county lacking any
pre-cutoff observation (peak NaN) and a county of constant zero counts
(peak and recent average both exactly 0), the pipeline returns NaN for
both ratios — float division neither raises `ZeroDivisionError` nor
returns 0 — where the claim requires 0. -/
theorem C1_ratio_is_nan_not_zero : curr_to_peak exTbl1 = [RVal.undef, RVal.undef] := by
  have hBA : ("B" == "A") = false := by decide
  have hAB : ("A" == "B") = false := by decide
  have hBAp : ¬("B" = "A") := by decide
  have hABp : ¬("A" = "B") := by decide
  have hd : daily_cases exTbl1 = [0, 1, 1, 1, 1, 1, 1, 0, 0, 0, 0, 0, 0, 0, 0] := by
    norm_num [daily_cases, daily_cases_aux, exTbl1, List.lookup, hBA, hAB]
  have hs : smoothColumn exTbl1
      (([0, 1, 1, 1, 1, 1, 1, 0, 0, 0, 0, 0, 0, 0, 0] : List ℚ).map some)
      = [none, none, none, none, none, none, some (6 / 7),
         none, none, none, none, none, none, some 0, some 0] := by
    norm_num [smoothColumn, smoothAux, exTbl1, List.lookup, allSome, sumSome, hBA, hAB,
      List.filterMap_cons, List.sum_cons]
  have hsf : sortedFips exTbl1 = ["A", "B"] := by decide
  simp only [curr_to_peak, add_sma_and_ratio, hd, hs, hsf]
  norm_num [county_curr_ave, county_prev_peak, refWindow, compWindow, refPairs,
    compPairs, exTbl1, dateLt, dateGt, d20201001, d20210206, meanSkipna, maxSkipna,
    lastN, safe_div, fdiv, List.max?, List.foldl, max_def, List.lookup, hBA, hAB,
    hBAp, hABp, List.zip_cons_cons, List.filterMap_cons, List.sum_cons, List.filter_cons]
  simp

/-- Claim C3 (counterexample): the analyzer mutates its input — the column
it returns as new state differs from the input column — and calling it
again on the state it left behind yields different ratios (the second call
smooths the already-smoothed series). -/
theorem C3_counterexample :
    ( add_sma_and_ratio exTbl3 exCol3 13 40).1 ≠ exCol3
    ∧ ( add_sma_and_ratio exTbl3 ( add_sma_and_ratio exTbl3 exCol3 13 40).1 13 40).2
        ≠ ( add_sma_and_ratio exTbl3 exCol3 13 40).2 := by
  have hs1 : smoothColumn exTbl3 exCol3
      = [none, none, none, none, none, none, some 3, some 4, some 5, some 6,
         some 7, some 8, some 9, some 10, some 11, some 12] := by
    norm_num [smoothColumn, smoothAux, exTbl3, exCol3, List.lookup, allSome, sumSome,
      List.filterMap_cons, List.sum_cons]
  have hs2 : smoothColumn exTbl3
      [none, none, none, none, none, none, some 3, some 4, some 5, some 6,
       some 7, some 8, some 9, some 10, some 11, some 12]
      = [none, none, none, none, none, none, none, none, none, none,
         none, none, some 6, some 7, some 8, some 9] := by
    norm_num [smoothColumn, smoothAux, exTbl3, List.lookup, allSome, sumSome,
      List.filterMap_cons, List.sum_cons]
  have hsf : sortedFips exTbl3 = ["A"] := by decide
  have hc1 : add_sma_and_ratio exTbl3 exCol3 13 40
      = ([none, none, none, none, none, none, some 3, some 4, some 5, some 6,
          some 7, some 8, some 9, some 10, some 11, some 12],
         [RVal.fin (23 / 18)]) := by
    simp only [ add_sma_and_ratio, hs1, hsf]
    norm_num [county_curr_ave, county_prev_peak, refWindow, compWindow, refPairs,
      compPairs, exTbl3, dateLt, dateGt, meanSkipna, maxSkipna, lastN, safe_div, fdiv,
      List.max?, List.foldl, max_def, List.zip_cons_cons, List.filterMap_cons,
      List.sum_cons, List.filter_cons, Option.some_ne_none]
  have hc2 : add_sma_and_ratio exTbl3
      [none, none, none, none, none, none, some 3, some 4, some 5, some 6,
       some 7, some 8, some 9, some 10, some 11, some 12] 13 40
      = ([none, none, none, none, none, none, none, none, none, none,
          none, none, some 6, some 7, some 8, some 9],
         [RVal.fin (17 / 12)]) := by
    simp only [ add_sma_and_ratio, hs2, hsf]
    norm_num [county_curr_ave, county_prev_peak, refWindow, compWindow, refPairs,
      compPairs, exTbl3, dateLt, dateGt, meanSkipna, maxSkipna, lastN, safe_div, fdiv,
      List.max?, List.foldl, max_def, List.zip_cons_cons, List.filterMap_cons,
      List.sum_cons, List.filter_cons, Option.some_ne_none]
  constructor
  · rw [hc1]
    decide
  · rw [hc1]
    simp only [hc2]
    norm_num

end Covid
